import Mathlib

/-
Shallow embedding of the VinylSearcher scraper (streamlit_app.py) and proofs
about its text normalization, selector resolution, extraction, pagination,
recommendation and cross-store comparison logic.

Strings are modelled as `List Char` (Python strings are sequences of code
points); `String` fields appear in the record types and are converted via
`String.data` where needed.
-/

namespace VinylSearcher

/-- Characters treated as whitespace by Python's `str.strip()` (the subset
relevant here: ASCII whitespace plus the non-breaking space U+00A0). -/
def isPySpace (c : Char) : Bool :=
  c == ' ' || c == '\t' || c == '\n' || c == '\r' ||
  c == Char.ofNat 11 || c == Char.ofNat 12 || c == Char.ofNat 160

/-- Remove trailing characters satisfying `p`. -/
def dropTrailing (p : Char → Bool) (l : List Char) : List Char :=
  (l.reverse.dropWhile p).reverse

/-- Model of Python `str.strip()` with no arguments: remove leading and
trailing whitespace. -/
def pyStrip (l : List Char) : List Char :=
  dropTrailing isPySpace (l.dropWhile isPySpace)

/-- Model of Python / pandas `str.lower()`. -/
def pyLower (l : List Char) : List Char := l.map Char.toLower

/-- The comparison-key normalization the program applies in `recommend_vinyls`
(`.astype(str).str.lower().str.strip()`, lines 264-267) and in the cross-store
comparison block (lines 454-458): lower-case, then strip leading/trailing
whitespace.  Note: it does NOT replace interior non-breaking spaces. -/
def normalize (l : List Char) : List Char := pyStrip (pyLower l)

/-- `normalize` applied to a `String`. -/
def normStr (s : String) : List Char := normalize s.data

/-- Model of Python `str.startswith`: `startsWithList pre l` iff `l` begins
with `pre`. -/
def startsWithList : List Char → List Char → Bool
  | [], _ => true
  | _ :: _, [] => false
  | a :: as, b :: bs => a == b && startsWithList as bs

/-- Model of Python's substring test `needle in hay` (also pandas
`.str.contains(needle, regex=False)`). -/
def containsSub : List Char → List Char → Bool
  | n, [] => n.isEmpty
  | n, c :: t => startsWithList n (c :: t) || containsSub n t

/- ### Basic lemmas about the text utilities -/

theorem toLower_toLower (c : Char) : c.toLower.toLower = c.toLower := by
  unfold Char.toLower
  by_cases h : c.toNat ≥ 65 ∧ c.toNat ≤ 90
  · rw [if_pos h]
    have hv : (c.toNat + 32).isValidChar := Or.inl (by omega)
    have ht : (Char.ofNat (c.toNat + 32)).toNat = c.toNat + 32 := by
      unfold Char.ofNat
      rw [dif_pos hv]
      rfl
    rw [ht, if_neg (by omega)]
  · rw [if_neg h, if_neg h]

theorem dropWhile_dropWhile (p : Char → Bool) (l : List Char) :
    (l.dropWhile p).dropWhile p = l.dropWhile p := by
  induction l with
  | nil => rfl
  | cons a as ih =>
    by_cases h : p a
    · simp [List.dropWhile_cons, h, ih]
    · simp [List.dropWhile_cons, h]

theorem dropTrailing_dropTrailing (p : Char → Bool) (l : List Char) :
    dropTrailing p (dropTrailing p l) = dropTrailing p l := by
  unfold dropTrailing
  rw [List.reverse_reverse, dropWhile_dropWhile]

theorem dropTrailing_append (p : Char → Bool) (l : List Char) :
    dropTrailing p l ++ (l.reverse.takeWhile p).reverse = l := by
  unfold dropTrailing
  rw [← List.reverse_append, List.takeWhile_append_dropWhile, List.reverse_reverse]

theorem dropWhile_of_append_eq (p : Char → Bool) (b s : List Char)
    (h : (b ++ s).dropWhile p = b ++ s) : b.dropWhile p = b := by
  cases b with
  | nil => rfl
  | cons x xs =>
    by_cases hx : p x
    · exfalso
      rw [List.cons_append, List.dropWhile_cons, if_pos hx] at h
      have hlen : ((xs ++ s).dropWhile p).length ≤ (xs ++ s).length :=
        (List.dropWhile_sublist p).length_le
      rw [h] at hlen
      simp at hlen
    · rw [List.dropWhile_cons, if_neg hx]

theorem dropWhile_pyStrip (l : List Char) :
    (pyStrip l).dropWhile isPySpace = pyStrip l := by
  unfold pyStrip
  exact dropWhile_of_append_eq isPySpace _ _
    (by rw [dropTrailing_append isPySpace (l.dropWhile isPySpace),
            dropWhile_dropWhile])

theorem pyStrip_pyStrip (l : List Char) : pyStrip (pyStrip l) = pyStrip l := by
  show dropTrailing isPySpace ((pyStrip l).dropWhile isPySpace) = pyStrip l
  rw [dropWhile_pyStrip]
  show dropTrailing isPySpace (dropTrailing isPySpace (l.dropWhile isPySpace)) = _
  rw [dropTrailing_dropTrailing]
  rfl

theorem map_id_of_mem (f : Char → Char) :
    ∀ l : List Char, (∀ c ∈ l, f c = c) → l.map f = l := by
  intro l
  induction l with
  | nil => intro _; rfl
  | cons a as ih =>
    intro h
    simp only [List.map_cons]
    rw [h a (by simp), ih (fun c hc => h c (by simp [hc]))]

theorem mem_dropTrailing (p : Char → Bool) (l : List Char) (c : Char)
    (h : c ∈ dropTrailing p l) : c ∈ l := by
  have := dropTrailing_append p l
  rw [← this]
  exact List.mem_append_left _ h

theorem mem_pyStrip (l : List Char) (c : Char) (h : c ∈ pyStrip l) : c ∈ l := by
  unfold pyStrip at h
  have h2 := mem_dropTrailing isPySpace _ c h
  exact (List.dropWhile_sublist isPySpace).subset h2

theorem pyLower_pyStrip_pyLower (l : List Char) :
    pyLower (pyStrip (pyLower l)) = pyStrip (pyLower l) := by
  apply map_id_of_mem
  intro c hc
  have hmem : c ∈ pyLower l := mem_pyStrip _ c hc
  obtain ⟨d, _, hd⟩ := List.mem_map.mp hmem
  rw [← hd]
  exact toLower_toLower d

theorem normalize_idem (l : List Char) : normalize (normalize l) = normalize l := by
  unfold normalize
  rw [pyLower_pyStrip_pyLower, pyStrip_pyStrip]

/- ### Data model -/

/-- One scraped product record, the dictionary appended at lines 244-250:
store (`Магазин`), artist (`Гурт/Співак`), album (`Назва Альбому`),
raw price text (`Ціна (Знижка)`), link (`Посилання`). -/
structure Listing where
  store : String
  artist : String
  album : String
  price : String
  link : String
deriving DecidableEq

/-- One row of the reference ("TOP-300") album list: artist and album. -/
structure RefAlbum where
  artist : String
  album : String
deriving DecidableEq

/-- One raw configuration row, after the header check guaranteed all ten
columns exist; a missing cell in a short row is represented as `""`
(lines 89-94). -/
structure RawRecord where
  name : String
  baseurl : String
  paginationparam : String
  startpage : String
  endpage : String
  productcontainer : String
  titleelement : String
  priceelement : String
  linkelement : String
  artistelement : String
deriving DecidableEq

/-- The per-site configuration dictionary built at lines 97-110. -/
structure SiteConfig where
  name : String
  base_url : String
  pagination_param : String
  start_page : Int
  end_page : Int
  product_container : String
  title_element : String
  price_element : String
  link_element : String
  artist_element : String
deriving DecidableEq

/- ### Configuration validation (get_site_configs_from_sheet, lines 84-120) -/

/-- Value of a digit list read as a decimal number. -/
def digitsToNat (l : List Char) : Nat :=
  l.foldl (fun acc c => acc * 10 + (c.toNat - 48)) 0

/-- Model of Python `int(string)`: strip surrounding whitespace, allow an
optional sign, then require at least one digit and nothing but digits.
`int("")` raises `ValueError`, modelled as `none`. -/
def pyInt (s : String) : Option Int :=
  match pyStrip s.data with
  | '-' :: ds =>
      if !ds.isEmpty && ds.all Char.isDigit then some (-(digitsToNat ds : Int)) else none
  | '+' :: ds =>
      if !ds.isEmpty && ds.all Char.isDigit then some (digitsToNat ds : Int) else none
  | ds =>
      if !ds.isEmpty && ds.all Char.isDigit then some (digitsToNat ds : Int) else none

/-- Lines 96-120: build the config dictionary for one row.  The `int(...)`
conversions run while the dictionary is built (a failure rejects the row),
then the row is kept only when `name`, `base_url` and the four required
selector strings are truthy (non-empty).  No relation between
`start_page` and `end_page` is checked. -/
def validate_record (r : RawRecord) : Option SiteConfig :=
  match pyInt r.startpage, pyInt r.endpage with
  | some sp, some ep =>
      if r.name != "" && r.baseurl != "" && r.productcontainer != "" &&
         r.titleelement != "" && r.priceelement != "" && r.linkelement != "" then
        some { name := r.name, base_url := r.baseurl,
               pagination_param := r.paginationparam,
               start_page := sp, end_page := ep,
               product_container := r.productcontainer,
               title_element := r.titleelement,
               price_element := r.priceelement,
               link_element := r.linkelement,
               artist_element := r.artistelement }
      else none
  | _, _ => none

/- ### Selector resolution (the "try each selector, first success wins" loops) -/

/-- Lines 183-188: container resolution.  `select s` models
`soup.select(s)` (all matches for selector `s`); the loop keeps the full
match list of the first selector that matches anything. -/
def resolve_all_first {S M : Type} (select : S → List M) : List S → List M
  | [] => []
  | s :: rest =>
    let found := select s
    if found.isEmpty then resolve_all_first select rest else found

/-- Lines 203-242: field resolution.  `selectOne s` models
`product.select_one(s)` (plus, for the link family, the extra
`link_tag.get('href')` truthiness check); the loop keeps the first
selector that succeeds. -/
def resolve_one_first {S M : Type} (selectOne : S → Option M) : List S → Option M
  | [] => none
  | s :: rest =>
    match selectOne s with
    | some m => some m
    | none => resolve_one_first selectOne rest

/- ### Listing extraction: artist/album disambiguation (lines 197-229) -/

/-- Replace every non-breaking space by a regular space
(`.replace('\xa0', ' ')`). -/
def nbspToSpace (l : List Char) : List Char :=
  l.map (fun c => if c == Char.ofNat 160 then ' ' else c)

/-- The post-processing the extractor applies to every text read from a tag:
`get_text(strip=True).replace('\xa0', ' ').strip()` — the model takes the
`get_text(strip=True)` result as input. -/
def cleanText (l : List Char) : List Char := pyStrip (nbspToSpace l)

/-- The literal separator `" - "` used to split artist from album. -/
def sepDash : List Char := [' ', '-', ' ']

/-- Model of `full_title.split(' - ', 1)` when the separator occurs
(`' - ' in full_title`): split at the first occurrence, returning the left
and right parts; `none` when the separator does not occur. -/
def splitFirstSep : List Char → Option (List Char × List Char)
  | [] => none
  | c :: t =>
    if startsWithList sepDash (c :: t) then some ([], (c :: t).drop 3)
    else
      match splitFirstSep t with
      | some (l, r) => some (c :: l, r)
      | none => none

/-- The sentinel default album text (`'Невідомо'`, line 199). -/
def unknownAlbum : List Char := "Невідомо".data

/-- Lines 198-229: derive (artist, album) for one product container.
`artistText?` is the text of the first artist-selector match (or `none` when
the artist family is empty or matches nothing); `titleText?` likewise for the
title family.  The code branches on the *truthiness* of the cleaned artist
text: an artist tag whose cleaned text is empty falls into the
split-from-title branch. -/
def extract_artist_album (artistText? titleText? : Option (List Char)) :
    List Char × List Char :=
  let artist0 := match artistText? with
    | some t => cleanText t
    | none => []
  if artist0.isEmpty then
    match titleText? with
    | some t =>
      let fullTitle := cleanText t
      match splitFirstSep fullTitle with
      | some (l, r) => (pyStrip l, pyStrip r)
      | none => ([], fullTitle)
    | none => ([], unknownAlbum)
  else
    match titleText? with
    | some t =>
      let album0 := cleanText t
      if startsWithList (artist0 ++ sepDash) album0 then
        (artist0, pyStrip (album0.drop (artist0.length + 3)))
      else (artist0, album0)
    | none => (artist0, unknownAlbum)

/- ### Pagination driver (scrape_single_site, lines 162-253) -/

/-- Result of fetching and parsing one page: a request failure
(`requests.exceptions.RequestException` / `raise_for_status`), or a page whose
container resolution found the given products (each product yields exactly one
listing record, lines 197-250). -/
inductive FetchOutcome (L : Type) where
  | fetchErr : FetchOutcome L
  | okPage : List L → FetchOutcome L
deriving DecidableEq

/-- Listings contributed by one page: an errored page contributes nothing
(the `continue` at line 179). -/
def pageListings {L : Type} : FetchOutcome L → List L
  | .fetchErr => []
  | .okPage ps => ps

/-- The body of the `for page_num in range(start_page, end_page + 1)` loop
(lines 162-250), written with explicit fuel (`endPage + 1 - p` iterations
remain at page `p`).  Per iteration:
* page 1 uses `base_url`; any other page needs `pagination_param`, otherwise
  the scan stops (`break`, lines 163-170);
* a fetch error skips to the next page (line 179);
* zero product containers: stop if `page_num > start_page`, otherwise
  continue to the next page (lines 190-195);
* otherwise the page's records are appended and the loop continues. -/
def scrapeLoop {L : Type} (fetch : Nat → FetchOutcome L) (startPage : Nat)
    (hasPaginationParam : Bool) : Nat → Nat → List L
  | 0, _ => []
  | fuel + 1, p =>
    if p == 1 || hasPaginationParam then
      match fetch p with
      | .fetchErr => scrapeLoop fetch startPage hasPaginationParam fuel (p + 1)
      | .okPage products =>
        if products.isEmpty then
          if startPage < p then []
          else scrapeLoop fetch startPage hasPaginationParam fuel (p + 1)
        else products ++ scrapeLoop fetch startPage hasPaginationParam fuel (p + 1)
    else []

/-- `scrape_single_site`: the aggregated listing list for one site. -/
def scrape_single_site {L : Type} (fetch : Nat → FetchOutcome L)
    (startPage endPage : Nat) (hasPaginationParam : Bool) : List L :=
  scrapeLoop fetch startPage hasPaginationParam (endPage + 1 - startPage) startPage

/- ### Cross-store matching (lines 454-472) -/

/-- The row-selection condition of the cross-store search: artist condition
(`str.contains` of the normalized target artist, or trivially true when the
normalized target artist is empty), AND-ed with album containment, OR-ed with
exact normalized album equality when the target artist is empty. -/
def crossStoreMatch (targetArtist targetAlbum : String) (l : Listing) : Bool :=
  let ta := normStr targetArtist
  let tb := normStr targetAlbum
  let la := normStr l.artist
  let lb := normStr l.album
  let condArtist := if ta.isEmpty then true else containsSub ta la
  let condAlbum := containsSub tb lb
  let fin := condArtist && condAlbum
  if ta.isEmpty then fin || (lb == tb) else fin

/-- `found_album_in_shop = temp_deals_df[final_match_condition]` (line 472):
the rows of one shop's scrape selected for the target (artist, album). -/
def found_album_in_shop (deals : List Listing) (targetArtist targetAlbum : String) :
    List Listing :=
  deals.filter (crossStoreMatch targetArtist targetAlbum)

/- ### Reference matching (recommend_vinyls, lines 256-284) -/

/-- The inner-join condition of `pd.merge(..., on=[artist_norm, album_norm])`:
equality of the two normalized key columns. -/
def matchesRef (l : Listing) (r : RefAlbum) : Bool :=
  normStr l.artist == normStr r.artist && normStr l.album == normStr r.album

/-- The inner merge (lines 269-281): pandas keeps the left (listings) row
order, repeating a left row once per matching reference row; the selected and
renamed output columns all come from the listing side. -/
def joinListings (ls : List Listing) (refs : List RefAlbum) : List Listing :=
  ls.flatMap (fun l => (refs.filter (fun r => matchesRef l r)).map (fun _ => l))

/-- The deduplication key of `drop_duplicates(subset=[...])` (lines 282, 493):
(store, artist, album, link). -/
def key4 (l : Listing) : String × String × String × String :=
  (l.store, l.artist, l.album, l.link)

/-- Worker for `drop_duplicates` (keep='first', the pandas default): keep a
row iff its key was not seen before. -/
def dedupByAux {α β : Type} [DecidableEq β] (key : α → β) :
    List β → List α → List α
  | _, [] => []
  | seen, x :: xs =>
    if key x ∈ seen then dedupByAux key seen xs
    else x :: dedupByAux key (key x :: seen) xs

/-- `DataFrame.drop_duplicates(subset=...)` keeping the first occurrence. -/
def drop_duplicates {α β : Type} [DecidableEq β] (key : α → β) (l : List α) : List α :=
  dedupByAux key [] l

/-- The sort relation of `sort_values(by=['Гурт/Співак', 'Назва Альбому'])`:
lexicographic on the display (non-normalized) artist then album, under the
code-point (case-sensitive) string order. -/
def rowLe (a b : Listing) : Prop :=
  a.artist < b.artist ∨ (a.artist = b.artist ∧ a.album ≤ b.album)

instance : DecidableRel rowLe := fun a b =>
  inferInstanceAs (Decidable (a.artist < b.artist ∨ (a.artist = b.artist ∧ a.album ≤ b.album)))

instance : IsTotal Listing rowLe where
  total a b := by
    rcases lt_trichotomy a.artist b.artist with h | h | h
    · exact Or.inl (Or.inl h)
    · rcases le_total a.album b.album with h2 | h2
      · exact Or.inl (Or.inr ⟨h, h2⟩)
      · exact Or.inr (Or.inr ⟨h.symm, h2⟩)
    · exact Or.inr (Or.inl h)

instance : IsTrans Listing rowLe where
  trans a b c hab hbc := by
    rcases hab with h1 | ⟨h1, h1'⟩
    · rcases hbc with h2 | ⟨h2, _⟩
      · exact Or.inl (h1.trans h2)
      · exact Or.inl (h2 ▸ h1)
    · rcases hbc with h2 | ⟨h2, h2'⟩
      · exact Or.inl (h1 ▸ h2)
      · exact Or.inr ⟨h1.trans h2, h1'.trans h2'⟩

/-- `recommend_vinyls` (lines 256-284): empty input on either side gives an
empty result; otherwise inner-join on the normalized keys, deduplicate on
(store, artist, album, link) keeping the first occurrence, and sort ascending
by (artist, album).  pandas `sort_values` on several columns uses
`numpy.lexsort`, a stable sort; `List.insertionSort` is stable for the same
tie order, so it models it faithfully. -/
def recommend_vinyls (ls : List Listing) (refs : List RefAlbum) : List Listing :=
  if ls.isEmpty || refs.isEmpty then []
  else List.insertionSort rowLe (drop_duplicates key4 (joinListings ls refs))

/- ### Cross-store price comparison (lines 433-507) -/

/-- Lines 494-496: the cleanup chain applied to the raw price text before
`pd.to_numeric`: remove every `'₴'`, turn every `','` into `'.'`, remove
every `' '`. -/
def cleanPriceChars (l : List Char) : List Char :=
  ((l.filter (fun c => c != '₴')).map (fun c => if c == ',' then '.' else c)).filter
    (fun c => c != ' ')

/-- Model of `pd.to_numeric(..., errors='coerce')` on the cleaned text, for
the plain decimal forms the price texts reduce to: optional sign, an integer
part and an optional fractional part (at least one digit overall).  The
result is returned as (scaled integer value, number of fractional digits);
anything else coerces to NaN, modelled as `none`. -/
def parseScaled (l0 : List Char) : Option (Int × Nat) :=
  let sl : Int × List Char :=
    match l0 with
    | '-' :: rest => (-1, rest)
    | '+' :: rest => (1, rest)
    | _ => (1, l0)
  let ip := sl.2.takeWhile (fun c => c != '.')
  match sl.2.dropWhile (fun c => c != '.') with
  | [] =>
      if !ip.isEmpty && ip.all Char.isDigit then
        some (sl.1 * (digitsToNat ip : Int), 0)
      else none
  | _ :: fp =>
      if (!ip.isEmpty || !fp.isEmpty) && ip.all Char.isDigit && fp.all Char.isDigit then
        some (sl.1 * ((digitsToNat ip : Int) * 10 ^ fp.length + (digitsToNat fp : Int)),
              fp.length)
      else none

/-- The `Parsed_Price` column (lines 494-497) as an exact rational. -/
def parsedPrice (s : String) : Option ℚ :=
  (parseScaled (cleanPriceChars s.data)).map (fun v => (v.1 : ℚ) / 10 ^ v.2)

/-- Lines 433-441: the originally selected rows are appended to
`all_comparison_results` first, before any other shop's matches. -/
def all_comparison_results (originals scrapedMatches : List Listing) : List Listing :=
  originals ++ scrapedMatches

/-- Lines 492-498: the final comparison table: deduplicate on
(store, artist, album, link), then `dropna` on `Parsed_Price` drops every row
whose price text did not parse. -/
def final_comparison (rows : List Listing) : List Listing :=
  (drop_duplicates key4 rows).filter (fun r => (parsedPrice r.price).isSome)

/- ### Concrete fixtures used by counterexamples and witnesses -/

/-- A raw configuration row with `StartPage = 5 > EndPage = 2` and all
required fields present. -/
def recPageRange : RawRecord :=
  { name := "Shop", baseurl := "http://x", paginationparam := "p",
    startpage := "5", endpage := "2", productcontainer := ".c",
    titleelement := ".t", priceelement := ".p", linkelement := ".l",
    artistelement := "" }

/-- A raw configuration row whose `StartPage` cell is empty and whose other
fields are all valid. -/
def recEmptyStart : RawRecord :=
  { name := "Shop", baseurl := "http://x", paginationparam := "p",
    startpage := "", endpage := "3", productcontainer := ".c",
    titleelement := ".t", priceelement := ".p", linkelement := ".l",
    artistelement := "" }

/-- A listing whose price text is not numeric. -/
def rowBadPrice : Listing :=
  { store := "S", artist := "A", album := "B", price := "Невідомо", link := "L" }

/-- A listing whose price text parses. -/
def rowGoodPrice : Listing :=
  { store := "S", artist := "A", album := "B", price := "100,50 ₴", link := "L" }

/-- A duplicate of `rowGoodPrice` under the (store, artist, album, link) key,
with a different price text. -/
def rowGoodPriceDup : Listing :=
  { store := "S", artist := "A", album := "B", price := "999 ₴", link := "L" }

/- ### Helper lemmas: selector resolution -/

theorem resolve_all_first_spec {S M : Type} (select : S → List M) :
    ∀ (pre : List S) (s : S) (post : List S),
      (∀ t ∈ pre, select t = []) → select s ≠ [] →
      resolve_all_first select (pre ++ s :: post) = select s := by
  intro pre
  induction pre with
  | nil =>
    intro s post _ hs
    have he : (select s).isEmpty = false := by
      cases h : select s
      · exact absurd h hs
      · rfl
    show resolve_all_first select (s :: post) = select s
    simp [resolve_all_first, he]
  | cons a as ih =>
    intro s post hpre hs
    have ha : select a = [] := hpre a (by simp)
    show resolve_all_first select (a :: (as ++ s :: post)) = select s
    simp only [resolve_all_first, ha, List.isEmpty_nil, if_true]
    exact ih s post (fun t ht => hpre t (by simp [ht])) hs

theorem resolve_one_first_spec {S M : Type} (selectOne : S → Option M) :
    ∀ (pre : List S) (s : S) (post : List S),
      (∀ t ∈ pre, selectOne t = none) → selectOne s ≠ none →
      resolve_one_first selectOne (pre ++ s :: post) = selectOne s := by
  intro pre
  induction pre with
  | nil =>
    intro s post _ hs
    show resolve_one_first selectOne (s :: post) = selectOne s
    unfold resolve_one_first
    cases h : selectOne s
    · exact absurd h hs
    · rfl
  | cons a as ih =>
    intro s post hpre hs
    have ha : selectOne a = none := hpre a (by simp)
    show resolve_one_first selectOne (a :: (as ++ s :: post)) = selectOne s
    unfold resolve_one_first
    rw [ha]
    exact ih s post (fun t ht => hpre t (by simp [ht])) hs

/- ### Helper lemmas: deduplication -/

theorem mem_dedupByAux_not_seen {α β : Type} [DecidableEq β] (key : α → β) :
    ∀ (seen : List β) (l : List α) (x : α), x ∈ dedupByAux key seen l → key x ∉ seen := by
  intro seen l
  induction l generalizing seen with
  | nil => intro x h; simp [dedupByAux] at h
  | cons a as ih =>
    intro x h
    unfold dedupByAux at h
    by_cases ha : key a ∈ seen
    · rw [if_pos ha] at h
      exact ih seen x h
    · rw [if_neg ha] at h
      rcases List.mem_cons.mp h with h1 | h1
      · subst h1; exact ha
      · intro hx
        exact ih (key a :: seen) x h1 (List.mem_cons_of_mem _ hx)

theorem pairwise_dedupByAux {α β : Type} [DecidableEq β] (key : α → β) :
    ∀ (seen : List β) (l : List α),
      (dedupByAux key seen l).Pairwise (fun a b => key a ≠ key b) := by
  intro seen l
  induction l generalizing seen with
  | nil => exact List.Pairwise.nil
  | cons a as ih =>
    unfold dedupByAux
    by_cases ha : key a ∈ seen
    · rw [if_pos ha]; exact ih seen
    · rw [if_neg ha]
      refine List.Pairwise.cons ?_ (ih (key a :: seen))
      intro b hb he
      exact mem_dedupByAux_not_seen key (key a :: seen) as b hb
        (he ▸ List.mem_cons_self _ _)

theorem dedupByAux_sublist {α β : Type} [DecidableEq β] (key : α → β) :
    ∀ (seen : List β) (l : List α), List.Sublist (dedupByAux key seen l) l := by
  intro seen l
  induction l generalizing seen with
  | nil => exact List.Sublist.refl []
  | cons a as ih =>
    unfold dedupByAux
    by_cases ha : key a ∈ seen
    · rw [if_pos ha]; exact (ih seen).cons a
    · rw [if_neg ha]; exact (ih (key a :: seen)).cons₂ a

theorem mem_dedupByAux_of_first {α β : Type} [DecidableEq β] (key : α → β) :
    ∀ (seen : List β) (pre suf : List α) (x : α),
      (∀ y ∈ pre, key y ≠ key x) → key x ∉ seen →
      x ∈ dedupByAux key seen (pre ++ x :: suf) := by
  intro seen pre
  induction pre generalizing seen with
  | nil =>
    intro suf x _ hseen
    show x ∈ dedupByAux key seen (x :: suf)
    unfold dedupByAux
    rw [if_neg hseen]
    exact List.mem_cons_self _ _
  | cons a as ih =>
    intro suf x hpre hseen
    show x ∈ dedupByAux key seen (a :: (as ++ x :: suf))
    unfold dedupByAux
    by_cases h : key a ∈ seen
    · rw [if_pos h]
      exact ih seen suf x (fun y hy => hpre y (by simp [hy])) hseen
    · rw [if_neg h]
      apply List.mem_cons_of_mem
      refine ih (key a :: seen) suf x (fun y hy => hpre y (by simp [hy])) ?_
      intro hmem
      rcases List.mem_cons.mp hmem with h1 | h1
      · exact hpre a (by simp) h1.symm
      · exact hseen h1

/- ### Helper lemmas: the stable sort -/

theorem filter_orderedInsert (p : Listing → Bool)
    (hp : ∀ a b, p a = true → p b = true → rowLe a b) (a : Listing) :
    ∀ m : List Listing,
      (List.orderedInsert rowLe a m).filter p =
        if p a then a :: m.filter p else m.filter p := by
  intro m
  induction m with
  | nil =>
    show [a].filter p = _
    by_cases hpa : p a
    · simp [hpa]
    · simp [hpa]
  | cons b bs ih =>
    show (if rowLe a b then a :: b :: bs else b :: List.orderedInsert rowLe a bs).filter p = _
    by_cases hab : rowLe a b
    · rw [if_pos hab]
      by_cases hpa : p a
      · rw [List.filter_cons_of_pos hpa, if_pos hpa]
      · rw [List.filter_cons_of_neg (by simp [hpa]), if_neg hpa]
    · rw [if_neg hab]
      by_cases hpa : p a
      · have hpb : p b = false := by
          by_contra hc
          exact hab (hp a b hpa (by revert hc; cases p b <;> simp))
        rw [List.filter_cons_of_neg (by simp [hpb]), ih, if_pos hpa,
            List.filter_cons_of_neg (by simp [hpb]), if_pos hpa]
      · rw [List.filter_cons, ih, if_neg hpa, if_neg hpa, ← List.filter_cons]

theorem filter_insertionSort (p : Listing → Bool)
    (hp : ∀ a b, p a = true → p b = true → rowLe a b) :
    ∀ l : List Listing, (List.insertionSort rowLe l).filter p = l.filter p := by
  intro l
  induction l with
  | nil => rfl
  | cons x xs ih =>
    show (List.orderedInsert rowLe x (List.insertionSort rowLe xs)).filter p = _
    rw [filter_orderedInsert p hp x]
    by_cases hpx : p x
    · rw [if_pos hpx, ih, List.filter_cons_of_pos hpx]
    · rw [if_neg hpx, ih, List.filter_cons_of_neg (by simp [hpx])]

/- ### Helper lemmas: pagination -/

theorem flatMap_congr {α β : Type} (l : List α) (f g : α → List β)
    (h : ∀ a ∈ l, f a = g a) : l.flatMap f = l.flatMap g := by
  induction l with
  | nil => rfl
  | cons x xs ih =>
    show f x ++ xs.flatMap f = g x ++ xs.flatMap g
    rw [h x (by simp), ih (fun a ha => h a (by simp [ha]))]

theorem scrapeLoop_char {L : Type} (fetch : Nat → FetchOutcome L) (sp ep e : Nat)
    (hempty : fetch e = FetchOutcome.okPage [])
    (hfirst : ∀ p, sp < p → p < e → fetch p ≠ FetchOutcome.okPage ([] : List L))
    (hspe : sp < e) (heep : e ≤ ep) :
    ∀ fuel p, sp ≤ p → p ≤ e → fuel = ep + 1 - p →
      scrapeLoop fetch sp true fuel p =
        (List.range' p (e - p)).flatMap (fun q => pageListings (fetch q)) := by
  intro fuel
  induction fuel with
  | zero =>
    intro p _ hpe hfuel
    exact absurd hfuel (by omega)
  | succ n ih =>
    intro p hsp hpe hfuel
    unfold scrapeLoop
    simp only [Bool.or_true, if_true]
    by_cases hpeq : p = e
    · subst hpeq
      rw [hempty]
      simp only [List.isEmpty_nil, if_true, if_pos hspe]
      rw [Nat.sub_self]
      rfl
    · have hplt : p < e := lt_of_le_of_ne hpe hpeq
      have hstep : e - p = (e - (p + 1)) + 1 := by omega
      have hih := ih (p + 1) (by omega) (by omega) (by omega)
      rw [hstep, List.range'_succ]
      show _ = pageListings (fetch p) ++
        (List.range' (p + 1) (e - (p + 1))).flatMap (fun q => pageListings (fetch q))
      cases hf : fetch p with
      | fetchErr =>
        rw [hih]
        rfl
      | okPage ps =>
        cases hps : ps with
        | nil =>
          by_cases hsplt : sp < p
          · exact absurd (hps ▸ hf) (hfirst p hsplt hplt)
          · simp only [List.isEmpty_nil, if_true, if_neg hsplt]
            rw [hih]
            rfl
        | cons q qs =>
          simp only [List.isEmpty_cons, Bool.false_eq_true, if_false]
          rw [hih]
          rfl

/- ### Helper lemmas: cross-store matching -/

theorem crossStoreMatch_iff (ta tb : String) (l : Listing) :
    crossStoreMatch ta tb l = true ↔
      ((containsSub (normStr tb) (normStr l.album) = true ∧
         (normStr ta = [] ∨ containsSub (normStr ta) (normStr l.artist) = true)) ∨
       (normStr ta = [] ∧ normStr l.album = normStr tb)) := by
  by_cases hta : normStr ta = []
  · simp only [crossStoreMatch, hta, List.isEmpty_nil, if_true, Bool.true_and,
      Bool.or_eq_true, beq_iff_eq]
    tauto
  · have h : (normStr ta).isEmpty = false := by
      cases hq : normStr ta
      · exact absurd hq hta
      · rfl
    simp only [crossStoreMatch, h, Bool.false_eq_true, if_false, Bool.and_eq_true]
    constructor
    · rintro ⟨ha, hc⟩
      exact Or.inl ⟨hc, Or.inr ha⟩
    · rintro (⟨hc, hta2 | ha⟩ | ⟨hta2, _⟩)
      · exact absurd hta2 hta
      · exact ⟨ha, hc⟩
      · exact absurd hta2 hta

/- ### Claims -/

/-- C1: for a site scrape with a pagination parameter configured, if the first
page in `[start_page, end_page]` whose extraction finds zero product
containers is `e > start_page`, then the scan stops there: the aggregated
result is exactly the concatenation of the listings of pages
`start_page .. e-1` (errored pages contributing nothing), and the result does
not depend on the fetch outcome of any page beyond `e`.  An empty page at
`start_page` itself is not a stop: `hfirst` constrains only pages strictly
after `start_page`, so `fetch start_page` may be an empty page and the
characterization still covers pages up to `e - 1`. -/
theorem C1_empty_page_stops_scan {L : Type} (fetch : Nat → FetchOutcome L)
    (sp ep e : Nat) (hspe : sp < e) (heep : e ≤ ep)
    (hempty : fetch e = FetchOutcome.okPage [])
    (hfirst : ∀ p, sp < p → p < e → fetch p ≠ FetchOutcome.okPage ([] : List L)) :
    scrape_single_site fetch sp ep true =
      (List.range' sp (e - sp)).flatMap (fun q => pageListings (fetch q)) ∧
    ∀ fetch2 : Nat → FetchOutcome L, (∀ q, q ≤ e → fetch2 q = fetch q) →
      scrape_single_site fetch2 sp ep true = scrape_single_site fetch sp ep true := by
  have h1 := scrapeLoop_char fetch sp ep e hempty hfirst hspe heep (ep + 1 - sp) sp
    le_rfl (by omega) rfl
  refine ⟨h1, ?_⟩
  intro f2 hagree
  have hempty2 : f2 e = FetchOutcome.okPage [] := by rw [hagree e le_rfl, hempty]
  have hfirst2 : ∀ p, sp < p → p < e → f2 p ≠ FetchOutcome.okPage ([] : List L) := by
    intro p hp1 hp2
    rw [hagree p (by omega)]
    exact hfirst p hp1 hp2
  have h2 := scrapeLoop_char f2 sp ep e hempty2 hfirst2 hspe heep (ep + 1 - sp) sp
    le_rfl (by omega) rfl
  show scrapeLoop f2 sp true (ep + 1 - sp) sp = scrapeLoop fetch sp true (ep + 1 - sp) sp
  rw [h2, h1]
  apply flatMap_congr
  intro q hq
  have hmem := List.mem_range'_1.mp hq
  rw [hagree q (by omega)]

/-- Witness for C1: start_page 1, end_page 5; page 1 empty (scan continues),
page 2 has one product, page 3 empty (scan stops); pages 4 and 5 are
irrelevant — changing page 4 to a fetch error does not change the result. -/
theorem C1_witness :
    scrape_single_site
      (fun p => if p == 2 then FetchOutcome.okPage [10] else FetchOutcome.okPage []) 1 5 true
      = [10] ∧
    scrape_single_site
      (fun p => if p == 2 then FetchOutcome.okPage [10]
        else if p == 4 then FetchOutcome.fetchErr else FetchOutcome.okPage []) 1 5 true
      = [10] := by
  have h := C1_empty_page_stops_scan (L := Nat)
    (fun p => if p == 2 then FetchOutcome.okPage [10] else FetchOutcome.okPage []) 1 5 3
    (by omega) (by omega) (by rfl)
    (by
      intro p h1 h2
      have hp : p = 2 := by omega
      subst hp
      decide)
  constructor
  · exact h.1.trans (by rfl)
  · refine (h.2 _ ?_).trans (h.1.trans (by rfl))
    intro q hq
    interval_cases q <;> rfl

/-- C2: a listing is selected by the cross-store search iff its normalized
album contains the normalized target album as a substring and (the normalized
target artist is empty or the normalized artist contains it), or the target
artist is empty and the normalized albums are exactly equal; with the
claimed example (empty artist, target "dark side" vs album
"The Dark Side Of The Moon"). -/
theorem C2_cross_store_selection :
    (∀ (deals : List Listing) (ta tb : String) (l : Listing),
        l ∈ found_album_in_shop deals ta tb ↔
          l ∈ deals ∧
            ((containsSub (normStr tb) (normStr l.album) = true ∧
               (normStr ta = [] ∨ containsSub (normStr ta) (normStr l.artist) = true)) ∨
             (normStr ta = [] ∧ normStr l.album = normStr tb))) ∧
    crossStoreMatch "" "dark side"
      { store := "S", artist := "", album := "The Dark Side Of The Moon",
        price := "", link := "" } = true := by
  constructor
  · intro deals ta tb l
    unfold found_album_in_shop
    rw [List.mem_filter]
    exact and_congr_right (fun _ => crossStoreMatch_iff ta tb l)
  · decide

/-- C3: when the artist did not come from its own selector, the cleaned title
text is split at the first `" - "` (left part, trimmed, is the artist; right
part, trimmed, is the album; no separator means the whole text is the album
and the artist stays empty); when the artist did come from its own selector,
the cleaned title text becomes the album, with a leading `"<artist> - "`
prefix stripped when present; with the claimed examples. -/
theorem C3_artist_title_disambiguation :
    (∀ t : List Char,
        extract_artist_album none (some t) =
          match splitFirstSep (cleanText t) with
          | some (l, r) => (pyStrip l, pyStrip r)
          | none => ([], cleanText t)) ∧
    (∀ a t : List Char, cleanText a ≠ [] →
        extract_artist_album (some a) (some t) =
          (cleanText a,
            if startsWithList (cleanText a ++ sepDash) (cleanText t) then
              pyStrip ((cleanText t).drop ((cleanText a).length + 3))
            else cleanText t)) ∧
    extract_artist_album none (some "Pink Floyd - The Wall".data) =
      ("Pink Floyd".data, "The Wall".data) ∧
    extract_artist_album none (some "The Wall".data) = ([], "The Wall".data) ∧
    extract_artist_album (some "Pink Floyd".data) (some "Pink Floyd - The Wall".data) =
      ("Pink Floyd".data, "The Wall".data) := by
  refine ⟨fun t => rfl, ?_, by decide, by decide, by decide⟩
  intro a t ha
  have he : (cleanText a).isEmpty = false := by
    cases hq : cleanText a
    · exact absurd hq ha
    · rfl
  simp only [extract_artist_album, he, Bool.false_eq_true, if_false]
  by_cases hs : startsWithList (cleanText a ++ sepDash) (cleanText t)
  · rw [if_pos hs, if_pos hs]
  · rw [if_neg hs, if_neg hs]

/-- Witness for C3's artist-found branch at a concrete input. -/
theorem C3_witness :
    extract_artist_album (some "Led Zeppelin".data) (some "Led Zeppelin - IV".data) =
      ("Led Zeppelin".data, "IV".data) := by
  have h := C3_artist_title_disambiguation.2.1 "Led Zeppelin".data
    "Led Zeppelin - IV".data (by decide)
  exact h.trans (by decide)

/-- C4: in every selector family the selectors are tried in order and the
family's result comes entirely from the first selector that succeeds: for the
container family (all matches of the first succeeding selector) and for the
field families (the single element of the first succeeding selector); later
selectors in the family are never consulted (the result is unchanged under
any replacement of the selectors after the first success). -/
theorem C4_first_success_wins {S M : Type} (select : S → List M)
    (selectOne : S → Option M) (pre post post' : List S) (s : S)
    (hpre : ∀ t ∈ pre, select t = []) (hs : select s ≠ [])
    (hpre1 : ∀ t ∈ pre, selectOne t = none) (hs1 : selectOne s ≠ none) :
    resolve_all_first select (pre ++ s :: post) = select s ∧
    resolve_all_first select (pre ++ s :: post) = resolve_all_first select (pre ++ s :: post') ∧
    resolve_one_first selectOne (pre ++ s :: post) = selectOne s ∧
    resolve_one_first selectOne (pre ++ s :: post') = selectOne s :=
  ⟨resolve_all_first_spec select pre s post hpre hs,
   (resolve_all_first_spec select pre s post hpre hs).trans
     (resolve_all_first_spec select pre s post' hpre hs).symm,
   resolve_one_first_spec selectOne pre s post hpre1 hs1,
   resolve_one_first_spec selectOne pre s post' hpre1 hs1⟩

/-- Witness for C4 at a concrete family: selector 1 fails, selector 2
succeeds, selector 3 is never consulted. -/
theorem C4_witness :
    resolve_all_first (fun t : Nat => if t == 2 then ([7, 8] : List Nat) else [])
      ([1] ++ 2 :: [3]) = [7, 8] ∧
    resolve_one_first (fun t : Nat => if t == 2 then some (9 : Nat) else none)
      ([1] ++ 2 :: [3]) = some 9 := by
  have h := C4_first_success_wins (fun t : Nat => if t == 2 then ([7, 8] : List Nat) else [])
    (fun t : Nat => if t == 2 then some (9 : Nat) else none) [1] [3] [] 2
    (by decide) (by decide) (by decide) (by decide)
  exact ⟨h.1.trans (by decide), h.2.2.1.trans (by decide)⟩

/-- C5 (amended): the comparison-key normalization used by both matching
stages is exactly lower-casing followed by stripping leading/trailing
whitespace; interior non-breaking spaces are NOT replaced by regular spaces,
interior space runs are not collapsed ("The  Wall" and "The Wall" normalize
to different strings), and normalize is idempotent. -/
theorem C5_normalize_characterization :
    (∀ l : List Char, normalize (normalize l) = normalize l) ∧
    normStr "The  Wall" ≠ normStr "The Wall" ∧
    normalize ('a' :: Char.ofNat 160 :: 'b' :: []) =
      'a' :: Char.ofNat 160 :: 'b' :: [] := by
  refine ⟨normalize_idem, by decide, by decide⟩

/-- Counterexample to C5 as stated: the claim says every non-breaking-space
character is replaced by a regular space, so normalize("a b") would be
"a b"; the code leaves the interior NBSP untouched. -/
theorem C5_counterexample :
    normStr "a\u00A0b" = 'a' :: Char.ofNat 160 :: 'b' :: [] ∧
    normStr "a\u00A0b" ≠ 'a' :: ' ' :: 'b' :: [] := by
  constructor <;> decide

/-- C6: the output of `recommend_vinyls` contains no two rows sharing the
(store, artist, album, link) tuple; it is sorted ascending by the original
display (artist, album) under the case-sensitive code-point order; the
pre-sort sequence (the deduplicated join) preserves the join's input order
(it is a sublist of it); and the sort is stable: for every (artist, album)
key, the output rows with that key appear exactly in the pre-sort order, so
ties are broken by input order. -/
theorem C6_recommend_dedup_sort :
    ∀ (ls : List Listing) (refs : List RefAlbum),
      (recommend_vinyls ls refs).Pairwise (fun a b => key4 a ≠ key4 b) ∧
      (recommend_vinyls ls refs).Sorted rowLe ∧
      List.Sublist (drop_duplicates key4 (joinListings ls refs)) (joinListings ls refs) ∧
      ∀ k : String × String,
        (recommend_vinyls ls refs).filter (fun x => (x.artist, x.album) == k) =
          (drop_duplicates key4 (joinListings ls refs)).filter
            (fun x => (x.artist, x.album) == k) := by
  intro ls refs
  have hsub : List.Sublist (drop_duplicates key4 (joinListings ls refs))
      (joinListings ls refs) := dedupByAux_sublist key4 [] _
  by_cases hg : (ls.isEmpty || refs.isEmpty) = true
  · have hrec : recommend_vinyls ls refs = [] := by
      unfold recommend_vinyls
      rw [if_pos hg]
    have hjoin : joinListings ls refs = [] := by
      simp only [Bool.or_eq_true] at hg
      rcases hg with h | h
      · rw [List.isEmpty_iff.mp h]
        rfl
      · rw [List.isEmpty_iff.mp h]
        simp [joinListings]
    refine ⟨by rw [hrec]; exact List.Pairwise.nil,
            by rw [hrec]; exact List.sorted_nil, hsub, ?_⟩
    intro k
    rw [hrec, hjoin]
    rfl
  · have hrec : recommend_vinyls ls refs =
        List.insertionSort rowLe (drop_duplicates key4 (joinListings ls refs)) := by
      unfold recommend_vinyls
      rw [if_neg hg]
    refine ⟨?_, ?_, hsub, ?_⟩
    · rw [hrec]
      exact ((List.perm_insertionSort rowLe _).pairwise_iff
        (fun h he => h he.symm)).mpr (pairwise_dedupByAux key4 [] _)
    · rw [hrec]
      exact List.sorted_insertionSort rowLe _
    · intro k
      rw [hrec]
      apply filter_insertionSort
      intro a b ha hb
      have ha' : (a.artist, a.album) = k := eq_of_beq ha
      have hb' : (b.artist, b.album) = k := eq_of_beq hb
      have h1 : a.artist = b.artist := congrArg Prod.fst (ha'.trans hb'.symm)
      have h2 : a.album = b.album := congrArg Prod.snd (ha'.trans hb'.symm)
      exact Or.inr ⟨h1, le_of_eq h2⟩

/-- Counterexample to C7 as stated: a raw record with StartPage 5 > EndPage 2
and valid required fields is NOT rejected — validation builds a SiteConfig
from it (there is no page-range check in lines 96-120). -/
theorem C7_counterexample :
    validate_record recPageRange =
      some { name := "Shop", base_url := "http://x", pagination_param := "p",
             start_page := 5, end_page := 2, product_container := ".c",
             title_element := ".t", price_element := ".p", link_element := ".l",
             artist_element := "" } ∧ (5 : Int) > 2 := by
  constructor
  · decide
  · decide

/-- C7 (amended): validation performs no page-range check at all — whenever
both page bounds parse as integers and the six required fields are non-empty,
the record is accepted, regardless of whether StartPage exceeds EndPage. -/
theorem C7_no_page_range_check (r : RawRecord) (sp ep : Int)
    (hsp : pyInt r.startpage = some sp) (hep : pyInt r.endpage = some ep)
    (hname : r.name ≠ "") (hbase : r.baseurl ≠ "") (hpc : r.productcontainer ≠ "")
    (hte : r.titleelement ≠ "") (hpe : r.priceelement ≠ "") (hle : r.linkelement ≠ "") :
    validate_record r =
      some { name := r.name, base_url := r.baseurl,
             pagination_param := r.paginationparam,
             start_page := sp, end_page := ep,
             product_container := r.productcontainer,
             title_element := r.titleelement,
             price_element := r.priceelement,
             link_element := r.linkelement,
             artist_element := r.artistelement } := by
  have hb : (r.name != "" && r.baseurl != "" && r.productcontainer != "" &&
      r.titleelement != "" && r.priceelement != "" && r.linkelement != "") = true := by
    simp [bne_iff_ne, hname, hbase, hpc, hte, hpe, hle]
  simp only [validate_record, hsp, hep, hb, if_true]

/-- Witness for C7 (amended) at the concrete start > end record. -/
theorem C7_witness :
    validate_record recPageRange =
      some { name := "Shop", base_url := "http://x", pagination_param := "p",
             start_page := 5, end_page := 2, product_container := ".c",
             title_element := ".t", price_element := ".p", link_element := ".l",
             artist_element := "" } :=
  C7_no_page_range_check recPageRange 5 2 (by decide) (by decide) (by decide)
    (by decide) (by decide) (by decide) (by decide) (by decide)

/-- C8 (code behavior at the failing input): a row whose StartPage cell is
empty is rejected, because the cell is recorded as "" (line 94) and
`int("")` raises ValueError (line 101, caught at line 117) — the default
`1` in `record.get('startpage', 1)` can never apply since the key always
exists.  The claim (and the code's own default argument) say the record
should be accepted with start_page = 1. -/
theorem C8_empty_startpage_rejected :
    pyInt "" = none ∧ validate_record recEmptyStart = none := by
  constructor
  · decide
  · decide

/-- C9: the comparison price parser maps "1 234,50 ₴" to 1234.50 exactly
(currency glyph removed, spaces removed, decimal comma to decimal point); a
row whose price text does not reduce to a number is excluded from the
price-sorted comparison output (`dropna` on Parsed_Price) but is still
selected by the unsorted existence check, whose condition never looks at the
price. -/
theorem C9_price_parsing :
    parsedPrice "1 234,50 ₴" = some ((2469 : ℚ) / 2) ∧
    parsedPrice "Невідомо" = none ∧
    (∀ (rows : List Listing) (r : Listing),
        parsedPrice r.price = none → r ∉ final_comparison rows) ∧
    (∀ (deals : List Listing) (ta tb : String) (r : Listing),
        parsedPrice r.price = none → r ∈ deals → crossStoreMatch ta tb r = true →
        r ∈ found_album_in_shop deals ta tb) := by
  refine ⟨?_, rfl, ?_, ?_⟩
  · have h : parseScaled (cleanPriceChars "1 234,50 ₴".data) = some (123450, 2) := by decide
    unfold parsedPrice
    rw [h]
    simp only [Option.map_some']
    norm_num
  · intro rows r h hmem
    rw [final_comparison, List.mem_filter, h] at hmem
    simp at hmem
  · intro deals ta tb r _ hmem hmatch
    exact List.mem_filter.mpr ⟨hmem, hmatch⟩

/-- Witness for C9: a concrete non-numeric-price row is dropped from the
final comparison table but still found by the existence check. -/
theorem C9_witness :
    rowBadPrice ∉ final_comparison (rowBadPrice :: []) ∧
    rowBadPrice ∈ found_album_in_shop (rowBadPrice :: []) "" "b" :=
  ⟨C9_price_parsing.2.2.1 (rowBadPrice :: []) rowBadPrice rfl,
   C9_price_parsing.2.2.2 (rowBadPrice :: []) "" "b" rowBadPrice rfl
     (List.mem_singleton.mpr rfl) (by decide)⟩

/-- C10: every originally selected row is appended to the comparison results
before any scraped match, so — the selected originals having pairwise
distinct (store, artist, album, link) keys, as rows of the deduplicated
recommendation table do — an original row survives the final deduplication
(it is the first occurrence of its key) and appears in the final comparison
output whenever its price text parses. -/
theorem C10_originals_survive (originals scraped : List Listing) (o : Listing)
    (hdist : originals.Pairwise (fun a b => key4 a ≠ key4 b))
    (ho : o ∈ originals)
    (hp : (parsedPrice o.price).isSome = true) :
    o ∈ final_comparison (all_comparison_results originals scraped) := by
  obtain ⟨pre, suf, hsplit⟩ := List.append_of_mem ho
  unfold all_comparison_results final_comparison
  refine List.mem_filter.mpr ⟨?_, hp⟩
  unfold drop_duplicates
  subst hsplit
  rw [List.append_assoc, List.cons_append]
  refine mem_dedupByAux_of_first key4 [] pre (suf ++ scraped) o ?_ (by simp)
  intro y hy
  rw [List.pairwise_append] at hdist
  exact hdist.2.2 y hy o (List.mem_cons_self _ _)

/-- Witness for C10: the original offer survives dedup ahead of a scraped
duplicate with the same key and appears in the final output. -/
theorem C10_witness :
    rowGoodPrice ∈
      final_comparison (all_comparison_results (rowGoodPrice :: []) (rowGoodPriceDup :: [])) :=
  C10_originals_survive (rowGoodPrice :: []) (rowGoodPriceDup :: []) rowGoodPrice
    (List.pairwise_singleton _ _) (List.mem_singleton.mpr rfl) rfl

end VinylSearcher
